import Mathlib

/-!
Verification of the VaultProtocol repository against its specification.

The development shallowly embeds the parts of the code the claims are about:

* `EncryptionService` — the authenticated-encryption envelope codec of
  `app/services/encryptionService.js` (AES-256-GCM with the file name as
  associated data).  The AES-GCM primitive itself is Node's `crypto`
  library, external to the repository, so it is modelled as an idealized
  AEAD: the ciphertext is the plaintext XOR-ed with a key/nonce-derived
  keystream (capturing the stream-cipher shape of GCM: same length,
  XOR-involutive), and the authentication tag is an injective function of
  (key, iv, associated data, ciphertext) — the symbolic-model idealization
  of an unforgeable MAC.  What is taken from the repository's source is
  everything around the primitive: which fields the envelope carries,
  which of them the tag covers, that the stored file name (not a
  caller-supplied one) is re-supplied as associated data on decode, and
  which metadata fields are returned unauthenticated.
* `CertificateManager` — the ledger contract `contracts/CertificateManager.sol`
  as a state machine over an explicit contract state; `require` failures
  become `Except.error` values and, as in the EVM, leave the state
  untouched (`resolve` implements the revert semantics).
* `CertificateController` / `IPFSService` — the lifecycle flows of
  `app/controllers/certificateController.js`, with the IPFS store
  abstracted to a partial map from content address to stored envelope and
  the unpin operation to a success predicate; each flow also reports which
  addresses it fetched from the store.

Throwing JavaScript code is modelled with `Option`/`Except`; the JSON/
base64 serialization of `encryptForIPFS` is a bijection on envelope fields
and is not modelled — envelopes are handled in structured form.
-/

namespace EncryptionService

/-- Little-endian base-257 value of a byte list, with a leading guard digit.
On lists whose entries are below 257 this is injective; it serves as the
injective packaging used by the idealized authentication tag. -/
def encR : List Nat → Nat
  | [] => 1
  | b :: l => b + 257 * encR l

/-- Idealized AES-256-GCM authentication tag: an injective function of the
key, the iv, the associated data (the file name bytes) and the ciphertext.
In `encryptionService.js` the tag is produced by `cipher.getAuthTag()`
after `cipher.setAAD(Buffer.from(fileName))`; GCM binds exactly these
inputs, which the symbolic model reflects by injective pairing. -/
def gcmTag (key iv aad ct : List Nat) : Nat :=
  Nat.pair (encR key) (Nat.pair (encR iv) (Nat.pair (encR aad) (encR ct)))

/-- Idealized GCM keystream byte `i` for a given key and iv. -/
def ksByte (key iv : List Nat) (i : Nat) : Nat :=
  Nat.pair (encR key) (Nat.pair (encR iv) i) % 256

/-- XOR a byte list with the keystream starting at counter position `i`.
Applying it twice restores the input, the shape shared by GCM's CTR-mode
encryption and decryption. -/
def xcryptFrom (key iv : List Nat) : Nat → List Nat → List Nat
  | _, [] => []
  | i, b :: rest => (b ^^^ ksByte key iv i) :: xcryptFrom key iv (i + 1) rest

/-- The idealized AES-256-GCM stream transform (encrypt and decrypt). -/
def aesGcmXcrypt (key iv data : List Nat) : List Nat :=
  xcryptFrom key iv 0 data

/-- The envelope object built by `EncryptionService.encryptFile`: ciphertext,
iv, tag, and the clear-text metadata fields `algorithm`, `fileName`,
`originalSize`, `encryptedSize`, `timestamp`. -/
structure EncryptedData where
  encryptedContent : List Nat
  iv : List Nat
  authTag : Nat
  algorithm : String
  fileName : List Nat
  originalSize : Nat
  encryptedSize : Nat
  timestamp : Nat
deriving DecidableEq

/-- The object returned by `EncryptionService.decryptFromIPFS`. -/
structure DecryptedFile where
  content : List Nat
  fileName : List Nat
  originalSize : Nat
  encryptedSize : Nat
  algorithm : String
  timestamp : Nat
deriving DecidableEq

/-- `EncryptionService.encryptFile(fileData, fileName)`.  The random iv, the
configured algorithm string and `Date.now()` are lifted to parameters; the
file name is bound as associated data, the tag covers the associated data
and the ciphertext, and the metadata fields are stored in clear. -/
def encryptFile (secretKey iv fileData fileName : List Nat) (alg : String)
    (now : Nat) : EncryptedData :=
  let encrypted := aesGcmXcrypt secretKey iv fileData
  { encryptedContent := encrypted
    iv := iv
    authTag := gcmTag secretKey iv fileName encrypted
    algorithm := alg
    fileName := fileName
    originalSize := fileData.length
    encryptedSize := encrypted.length
    timestamp := now }

/-- `EncryptionService.decryptFile(encryptedData)`: re-supplies the stored
`fileName` as associated data, verifies the tag and only then yields the
plaintext (`decipher.final()` throws before any data is returned when the
tag does not verify — modelled as `none`).  The `algorithm` metadata field
is ignored: the source hardcodes the cipher name in `createDecipheriv`. -/
def decryptFile (secretKey : List Nat) (e : EncryptedData) : Option (List Nat) :=
  if gcmTag secretKey e.iv e.fileName e.encryptedContent = e.authTag then
    some (aesGcmXcrypt secretKey e.iv e.encryptedContent)
  else none

/-- `EncryptionService.encryptForIPFS`: builds the envelope and serializes
it; the JSON/base64 serialization is a bijection on the fields and is not
modelled, so the structured envelope stands for the stored bytes. -/
def encryptForIPFS (secretKey iv fileData fileName : List Nat) (alg : String)
    (now : Nat) : EncryptedData :=
  encryptFile secretKey iv fileData fileName alg now

/-- `EncryptionService.decryptFromIPFS`: decrypts the envelope content with
the stored file name as associated data and returns the content together
with the envelope's clear-text metadata fields. -/
def decryptFromIPFS (secretKey : List Nat) (e : EncryptedData) :
    Option DecryptedFile :=
  (decryptFile secretKey e).map fun c =>
    { content := c
      fileName := e.fileName
      originalSize := e.originalSize
      encryptedSize := e.encryptedSize
      algorithm := e.algorithm
      timestamp := e.timestamp }

/-- Flip bit `m` of a byte list (byte `m / 8`, bit `m % 8`). -/
def flipBit (l : List Nat) (m : Nat) : List Nat :=
  l.set (m / 8) (l.getD (m / 8) 0 ^^^ 1 <<< (m % 8))

/-- The four envelope fields an attacker may flip a bit of in claim C2. -/
inductive TamperTarget where
  | iv
  | tag
  | ciphertext
  | name
deriving DecidableEq

/-- Number of bits of the targeted field (the stored tag is 16 bytes). -/
def tamperBits : TamperTarget → EncryptedData → Nat
  | .iv, e => 8 * e.iv.length
  | .tag, _ => 128
  | .ciphertext, e => 8 * e.encryptedContent.length
  | .name, e => 8 * e.fileName.length

/-- Flip bit `m` of the targeted field of an envelope. -/
def tamperEnvelope : TamperTarget → EncryptedData → Nat → EncryptedData
  | .iv, e, m => { e with iv := flipBit e.iv m }
  | .tag, e, m => { e with authTag := e.authTag ^^^ 1 <<< m }
  | .ciphertext, e, m => { e with encryptedContent := flipBit e.encryptedContent m }
  | .name, e, m => { e with fileName := flipBit e.fileName m }

end EncryptionService

namespace CertificateManager

/-- The `Certificate` struct of `contracts/CertificateManager.sol`; the
issuer address is modelled as a `Nat`. -/
structure Certificate where
  fid : String
  cid : String
  email : String
  issueDate : Nat
  lastModified : Nat
  issuer : Nat
  isActive : Bool
deriving DecidableEq

/-- The default value a Solidity mapping yields for an absent key. -/
def emptyCertificate : Certificate :=
  { fid := "", cid := "", email := "", issueDate := 0, lastModified := 0,
    issuer := 0, isActive := false }

/-- The contract's storage: the `certificates` mapping (total with default,
as in the EVM), the `certificatesByEmail` mapping and the `allFIDs` array. -/
structure ContractState where
  certificates : String → Certificate
  certificatesByEmail : String → List String
  allFIDs : List String

/-- The freshly deployed contract. -/
def emptyLedger : ContractState :=
  { certificates := fun _ => emptyCertificate
    certificatesByEmail := fun _ => []
    allFIDs := [] }

/-- One constructor per distinct `require` message of the contract.
In the spec's taxonomy: `fidEmpty`/`cidEmpty`/`emailEmpty`/`newCidEmpty`
are `InvalidArgumentError`, `duplicateFid` is `DuplicateError`, `notFound`
is `NotFoundError`, `onlyIssuer` is `AuthorizationError` and `notActive`
is `InactiveError`. -/
inductive LedgerError where
  | fidEmpty
  | cidEmpty
  | emailEmpty
  | duplicateFid
  | notFound
  | onlyIssuer
  | notActive
  | newCidEmpty
deriving DecidableEq

/-- EVM revert semantics: a failed call leaves the caller's view of the
state unchanged. -/
def resolve (s : ContractState) : Except LedgerError ContractState → ContractState
  | .ok s2 => s2
  | .error _ => s

/-- `issueCertificate(fid, cid, email)`: the three emptiness `require`s in
source order, then the duplicate check on `certificates[fid].fid`, then
the record is written, the email index and `allFIDs` appended.
`block.timestamp` and `msg.sender` are the `now` and `sender` parameters. -/
def issueCertificate (s : ContractState) (fid cid email : String)
    (sender now : Nat) : Except LedgerError ContractState :=
  if fid = "" then .error .fidEmpty
  else if cid = "" then .error .cidEmpty
  else if email = "" then .error .emailEmpty
  else if (s.certificates fid).fid = "" then
    .ok { certificates := fun g =>
            if g = fid then
              { fid := fid, cid := cid, email := email, issueDate := now,
                lastModified := now, issuer := sender, isActive := true }
            else s.certificates g
          certificatesByEmail := fun e =>
            if e = email then s.certificatesByEmail e ++ [fid]
            else s.certificatesByEmail e
          allFIDs := s.allFIDs ++ [fid] }
  else .error .duplicateFid

/-- `updateCertificate(fid, newCid)` with its modifiers in source order:
`certificateExists`, `onlyIssuer`, `certificateActive`, then the body's
`require` on `newCid`; on success only `cid` and `lastModified` change. -/
def updateCertificate (s : ContractState) (fid newCid : String)
    (sender now : Nat) : Except LedgerError ContractState :=
  if (s.certificates fid).fid = "" then .error .notFound
  else if (s.certificates fid).issuer = sender then
    if (s.certificates fid).isActive then
      if newCid = "" then .error .newCidEmpty
      else
        .ok { s with certificates := fun g =>
                if g = fid then
                  { s.certificates fid with cid := newCid, lastModified := now }
                else s.certificates g }
    else .error .notActive
  else .error .onlyIssuer

/-- `verifyCertificate(fid, email)` with modifiers `certificateExists` and
`certificateActive`; the `keccak256` comparison of the two email strings is
modelled as string equality (collision-free idealization of the hash). -/
def verifyCertificate (s : ContractState) (fid email : String) :
    Except LedgerError Bool :=
  if (s.certificates fid).fid = "" then .error .notFound
  else if (s.certificates fid).isActive then
    .ok (decide ((s.certificates fid).email = email))
  else .error .notActive

/-- `getCertificate(fid)` with modifier `certificateExists`. -/
def getCertificate (s : ContractState) (fid : String) :
    Except LedgerError Certificate :=
  if (s.certificates fid).fid = "" then .error .notFound
  else .ok (s.certificates fid)

/-- `deleteCertificate(fid)` with modifiers `certificateExists` and
`onlyIssuer`; it only clears `isActive`. -/
def deleteCertificate (s : ContractState) (fid : String) (sender : Nat) :
    Except LedgerError ContractState :=
  if (s.certificates fid).fid = "" then .error .notFound
  else if (s.certificates fid).issuer = sender then
    .ok { s with certificates := fun g =>
            if g = fid then { s.certificates fid with isActive := false }
            else s.certificates g }
  else .error .onlyIssuer

/-- The contract's external calls, for quantifying over whole transactions. -/
inductive LedgerOp where
  | issue (fid cid email : String) (sender now : Nat)
  | update (fid newCid : String) (sender now : Nat)
  | deactivate (fid : String) (sender : Nat)
  | verify (fid email : String)
deriving DecidableEq

/-- Effect of one external call on the contract state (reverts roll back). -/
def applyLedgerOp (s : ContractState) : LedgerOp → ContractState
  | .issue fid cid email sender now => resolve s (issueCertificate s fid cid email sender now)
  | .update fid newCid sender now => resolve s (updateCertificate s fid newCid sender now)
  | .deactivate fid sender => resolve s (deleteCertificate s fid sender)
  | .verify _ _ => s

/-- Effect of a sequence of external calls. -/
def applyLedgerOps (s : ContractState) (ops : List LedgerOp) : ContractState :=
  ops.foldl applyLedgerOp s

end CertificateManager

namespace IPFSService

open EncryptionService

/-- `IPFSService.retrieveFile(cid)`: fetch the envelope stored at `cid`
(the content store is abstracted as a partial map, `none` standing for a
failed or not-found fetch) and decrypt it; a decryption failure propagates
as a thrown error (`none`). -/
def retrieveFile (store : String → Option EncryptedData) (key : List Nat)
    (cid : String) : Option DecryptedFile :=
  (store cid).bind fun env => decryptFromIPFS key env

end IPFSService

namespace CertificateController

open EncryptionService
open CertificateManager

/-- Outcome of the controller's verify flow: `inactiveResult` is the
normal JSON answer with `isValid:false` and reason "Certificate is not
active"; `result` is the answer carrying the on-chain verification bit;
`failure` is the 500 path of a thrown service error. -/
inductive VerifyOutcome where
  | inactiveResult
  | result (isValid : Bool)
  | failure (e : LedgerError)
deriving DecidableEq

/-- `CertificateController.verifyCertificate`: reads the record via the
blockchain service, answers the inactive case as a non-error result, and
otherwise reports the contract's verification bit.  The upstream Joi
request validation is HTTP glue outside the modelled core. -/
def verifyCertificate (s : ContractState) (fid email : String) : VerifyOutcome :=
  match CertificateManager.getCertificate s fid with
  | .error e => .failure e
  | .ok cert =>
    if cert.isActive then
      match CertificateManager.verifyCertificate s fid email with
      | .error e => .failure e
      | .ok v => .result v
    else .inactiveResult

/-- Outcome of the controller's delete flow. -/
inductive DeleteOutcome where
  | deleted (cid : String)
  | storeFailure
  | ledgerFailure (e : LedgerError)
deriving DecidableEq

/-- `CertificateController.deleteCertificate`: reads the record, then
calls `ipfsService.removeFile(certificate.cid)` — whose failure is thrown
and caught by the 500 handler — and only afterwards submits the
blockchain delete.  `removeOk` abstracts whether the IPFS unpin succeeds;
the pair's second component is the resulting ledger state. -/
def deleteCertificate (s : ContractState) (removeOk : String → Bool)
    (fid : String) (sender : Nat) : DeleteOutcome × ContractState :=
  match CertificateManager.getCertificate s fid with
  | .error e => (.ledgerFailure e, s)
  | .ok cert =>
    if removeOk cert.cid then
      match CertificateManager.deleteCertificate s fid sender with
      | .error e => (.ledgerFailure e, s)
      | .ok s2 => (.deleted cert.cid, s2)
    else (.storeFailure, s)

/-- Outcome of the controller's download flow. -/
inductive DownloadOutcome where
  | missingParams
  | ledgerFailure (e : LedgerError)
  | notFoundInactive
  | cidMismatch
  | retrieveFailed
  | fileResult (d : DecryptedFile)
deriving DecidableEq

/-- `CertificateController.downloadCertificate`: parameter check, ledger
read, the inactive 404, the caller-supplied-cid mismatch 400, and only
then the store fetch and decryption.  The second component lists the
content addresses fetched from the store. -/
def downloadCertificate (s : ContractState)
    (store : String → Option EncryptedData) (key : List Nat)
    (fid cid : String) : DownloadOutcome × List String :=
  if fid = "" ∨ cid = "" then (.missingParams, [])
  else
    match CertificateManager.getCertificate s fid with
    | .error e => (.ledgerFailure e, [])
    | .ok cert =>
      if cert.isActive then
        if cert.cid = cid then
          match IPFSService.retrieveFile store key cid with
          | none => (.retrieveFailed, [cid])
          | some d => (.fileResult d, [cid])
        else (.cidMismatch, [])
      else (.notFoundInactive, [])

end CertificateController

namespace Examples

open CertificateManager

/-- Ledger after a successful `issueCertificate("f1","QmA","a@x.com")` by
issuer 1 at time 0. -/
def sampleIssued : ContractState :=
  resolve emptyLedger (issueCertificate emptyLedger "f1" "QmA" "a@x.com" 1 0)

/-- `sampleIssued` after the issuer deactivated `f1`. -/
def sampleInactive : ContractState :=
  resolve sampleIssued (deleteCertificate sampleIssued "f1" 1)

end Examples

namespace EncryptionService

theorem encR_pos (l : List Nat) : 1 ≤ encR l := by
  induction l with
  | nil => exact le_refl 1
  | cons b l ih => simp only [encR]; omega

theorem encR_inj : ∀ l1 l2 : List Nat, (∀ b ∈ l1, b < 257) →
    (∀ b ∈ l2, b < 257) → encR l1 = encR l2 → l1 = l2 := by
  intro l1
  induction l1 with
  | nil =>
    intro l2 _ h2 h
    cases l2 with
    | nil => rfl
    | cons b l =>
      exfalso
      have hb : b < 257 := h2 b (by simp)
      have hp := encR_pos l
      simp only [encR] at h
      omega
  | cons b l ih =>
    intro l2 h1 h2 h
    cases l2 with
    | nil =>
      exfalso
      have hb : b < 257 := h1 b (by simp)
      have hp := encR_pos l
      simp only [encR] at h
      omega
    | cons c l' =>
      have hb : b < 257 := h1 b (by simp)
      have hc : c < 257 := h2 c (by simp)
      simp only [encR] at h
      have hbc : b = c ∧ encR l = encR l' := by omega
      have hl : l = l' := ih l' (fun x hx => h1 x (by simp [hx]))
        (fun x hx => h2 x (by simp [hx])) hbc.2
      rw [hbc.1, hl]

theorem pair_inj {a b c d : Nat} (h : Nat.pair a b = Nat.pair c d) :
    a = c ∧ b = d := Nat.pair_eq_pair.mp h

/-- The idealized tag determines the iv, the associated data and the
ciphertext (given the key), provided all bytes are genuine bytes. -/
theorem gcmTag_inj {key iv1 iv2 aad1 aad2 ct1 ct2 : List Nat}
    (hiv1 : ∀ b ∈ iv1, b < 257) (hiv2 : ∀ b ∈ iv2, b < 257)
    (haad1 : ∀ b ∈ aad1, b < 257) (haad2 : ∀ b ∈ aad2, b < 257)
    (hct1 : ∀ b ∈ ct1, b < 257) (hct2 : ∀ b ∈ ct2, b < 257)
    (h : gcmTag key iv1 aad1 ct1 = gcmTag key iv2 aad2 ct2) :
    iv1 = iv2 ∧ aad1 = aad2 ∧ ct1 = ct2 := by
  unfold gcmTag at h
  have h1 := (pair_inj h).2
  have h2 := pair_inj h1
  have h3 := pair_inj h2.2
  exact ⟨encR_inj _ _ hiv1 hiv2 h2.1, encR_inj _ _ haad1 haad2 h3.1,
    encR_inj _ _ hct1 hct2 h3.2⟩

theorem xor_ne_self {a b : Nat} (hb : b ≠ 0) : a ^^^ b ≠ a := by
  intro h
  have : a ^^^ (a ^^^ b) = a ^^^ a := congrArg (a ^^^ ·) h
  rw [← Nat.xor_assoc, Nat.xor_self, Nat.zero_xor] at this
  exact hb this

theorem shift_pos (m : Nat) : 1 <<< m ≠ 0 := by
  rw [Nat.one_shiftLeft]
  exact Nat.pos_iff_ne_zero.mp (Nat.pos_pow_of_pos m (by omega))

theorem shift_mod_lt (m : Nat) : 1 <<< (m % 8) < 256 := by
  rw [Nat.one_shiftLeft]
  have h8 : m % 8 ≤ 7 := by omega
  calc 2 ^ (m % 8) ≤ 2 ^ 7 := Nat.pow_le_pow_right (by omega) h8
    _ < 256 := by omega

theorem ksByte_lt (key iv : List Nat) (i : Nat) : ksByte key iv i < 256 :=
  Nat.mod_lt _ (by omega)

theorem xor_lt_256 {x y : Nat} (hx : x < 256) (hy : y < 256) : x ^^^ y < 256 := by
  have h256 : (256 : Nat) = 2 ^ 8 := by norm_num
  rw [h256] at hx hy ⊢
  exact Nat.xor_lt_two_pow hx hy

theorem xcryptFrom_length (key iv : List Nat) :
    ∀ (i : Nat) (data : List Nat), (xcryptFrom key iv i data).length = data.length := by
  intro i data
  induction data generalizing i with
  | nil => rfl
  | cons b rest ih => simp [xcryptFrom, ih]

theorem xcryptFrom_xcryptFrom (key iv : List Nat) :
    ∀ (i : Nat) (data : List Nat),
      xcryptFrom key iv i (xcryptFrom key iv i data) = data := by
  intro i data
  induction data generalizing i with
  | nil => rfl
  | cons b rest ih =>
    simp only [xcryptFrom, Nat.xor_cancel_right]
    exact congrArg (b :: ·) (ih (i + 1))

theorem xcryptFrom_bytes (key iv : List Nat) :
    ∀ (i : Nat) (data : List Nat), (∀ b ∈ data, b < 256) →
      ∀ b ∈ xcryptFrom key iv i data, b < 256 := by
  intro i data
  induction data generalizing i with
  | nil => intro _ b hb; cases hb
  | cons c rest ih =>
    intro h b hb
    simp only [xcryptFrom, List.mem_cons] at hb
    rcases hb with hb | hb
    · subst hb
      exact xor_lt_256 (h c (by simp)) (ksByte_lt key iv i)
    · exact ih (i + 1) (fun x hx => h x (by simp [hx])) b hb

theorem flipBit_bytes {l : List Nat} (m : Nat) (h : ∀ b ∈ l, b < 256) :
    ∀ b ∈ flipBit l m, b < 256 := by
  intro b hb
  rcases List.mem_or_eq_of_mem_set hb with hmem | heq
  · exact h b hmem
  · subst heq
    have hd : l.getD (m / 8) 0 < 256 := by
      by_cases hlt : m / 8 < l.length
      · rw [List.getD_eq_getElem l 0 hlt]
        exact h _ (List.getElem_mem hlt)
      · rw [List.getD_eq_default l 0 (by omega)]
        omega
    exact xor_lt_256 hd (shift_mod_lt m)

theorem flipBit_ne {l : List Nat} {m : Nat} (h : m < 8 * l.length) :
    flipBit l m ≠ l := by
  intro heq
  have hj : m / 8 < l.length := by omega
  have hget : (flipBit l m).getD (m / 8) 0 =
      l.getD (m / 8) 0 ^^^ 1 <<< (m % 8) := by
    have hj2 : m / 8 < (flipBit l m).length := by
      simpa [flipBit, List.length_set] using hj
    rw [List.getD_eq_getElem (flipBit l m) 0 hj2]
    simp [flipBit, List.getElem_set_self]
  have hsame : (flipBit l m).getD (m / 8) 0 = l.getD (m / 8) 0 := by
    rw [heq]
  rw [hget] at hsame
  exact xor_ne_self (shift_pos (m % 8)) hsame


end EncryptionService

namespace EncryptionService

theorem lt257 {l : List Nat} (h : ∀ b ∈ l, b < 256) : ∀ b ∈ l, b < 257 :=
  fun b hb => lt_of_lt_of_le (h b hb) (by omega)

/-- Claim C3 (confirmed): for every plaintext byte string `p`, non-empty
name `n` and 256-bit key, decoding the envelope produced by encoding
`(p, n)` under that key succeeds and returns content byte-identical to `p`
and file name `n` (together with the envelope's stored metadata). -/
theorem claim_C3 (key iv p n : List Nat) (alg : String) (t : Nat)
    (_hkey : key.length = 32) (_hn : n ≠ []) :
    decryptFromIPFS key (encryptForIPFS key iv p n alg t) =
      some { content := p, fileName := n, originalSize := p.length,
             encryptedSize := p.length, algorithm := alg, timestamp := t } := by
  simp [encryptForIPFS, encryptFile, decryptFromIPFS, decryptFile,
    aesGcmXcrypt, xcryptFrom_xcryptFrom, xcryptFrom_length]

/-- Concrete instance of `claim_C3` with a 32-byte key. -/
theorem claim_C3_witness :
    decryptFromIPFS (List.range 32)
        (encryptForIPFS (List.range 32) [1, 2] [5, 6, 7] [97] "aes-256-gcm" 0) =
      some { content := [5, 6, 7], fileName := [97], originalSize := 3,
             encryptedSize := 3, algorithm := "aes-256-gcm", timestamp := 0 } :=
  claim_C3 (List.range 32) [1, 2] [5, 6, 7] [97] "aes-256-gcm" 0 (by decide)
    (by decide)

/-- Claim C10 (confirmed): the metadata fields `algorithm`, `originalSize`
and `timestamp` of an envelope are not covered by the authentication tag —
replacing them by arbitrary attacker-chosen values leaves decoding
successful, returning the same plaintext content and reporting the chosen
metadata values without any integrity failure. -/
theorem claim_C10 (key iv p n : List Nat) (alg alg2 : String)
    (t t2 size2 : Nat) :
    decryptFromIPFS key
        { encryptFile key iv p n alg t with
            algorithm := alg2, originalSize := size2, timestamp := t2 } =
      some { content := p, fileName := n, originalSize := size2,
             encryptedSize := p.length, algorithm := alg2, timestamp := t2 } := by
  simp [encryptFile, decryptFromIPFS, decryptFile,
    aesGcmXcrypt, xcryptFrom_xcryptFrom, xcryptFrom_length]

/-- Claim C2 (confirmed): flipping any single bit of the stored iv, the
authentication tag, the ciphertext or the stored file name of a valid
envelope makes decoding fail closed (`none`, the thrown integrity error);
no corrupted plaintext is ever returned. -/
theorem claim_C2 (key iv p n : List Nat) (alg : String) (t : Nat)
    (target : TamperTarget) (m : Nat)
    (hiv : ∀ b ∈ iv, b < 256) (hp : ∀ b ∈ p, b < 256)
    (hn : ∀ b ∈ n, b < 256)
    (hm : m < tamperBits target (encryptFile key iv p n alg t)) :
    decryptFromIPFS key (tamperEnvelope target (encryptFile key iv p n alg t) m) =
      none := by
  have hct : ∀ b ∈ aesGcmXcrypt key iv p, b < 256 :=
    xcryptFrom_bytes key iv 0 p hp
  cases target with
  | iv =>
    simp only [tamperBits, encryptFile] at hm
    have hcond : gcmTag key (flipBit iv m) n (aesGcmXcrypt key iv p) ≠
        gcmTag key iv n (aesGcmXcrypt key iv p) := by
      intro h
      have hinj := gcmTag_inj (lt257 (flipBit_bytes m hiv)) (lt257 hiv)
        (lt257 hn) (lt257 hn) (lt257 hct) (lt257 hct) h
      exact flipBit_ne hm hinj.1
    simp [tamperEnvelope, encryptFile, decryptFromIPFS, decryptFile, hcond]
  | tag =>
    have hcond : gcmTag key iv n (aesGcmXcrypt key iv p) ≠
        gcmTag key iv n (aesGcmXcrypt key iv p) ^^^ 1 <<< m :=
      fun h => xor_ne_self (shift_pos m) h.symm
    simp [tamperEnvelope, encryptFile, decryptFromIPFS, decryptFile, hcond]
  | ciphertext =>
    simp only [tamperBits, encryptFile] at hm
    have hcond : gcmTag key iv n (flipBit (aesGcmXcrypt key iv p) m) ≠
        gcmTag key iv n (aesGcmXcrypt key iv p) := by
      intro h
      have hinj := gcmTag_inj (lt257 hiv) (lt257 hiv) (lt257 hn) (lt257 hn)
        (lt257 (flipBit_bytes m hct)) (lt257 hct) h
      exact flipBit_ne hm hinj.2.2
    simp [tamperEnvelope, encryptFile, decryptFromIPFS, decryptFile, hcond]
  | name =>
    simp only [tamperBits, encryptFile] at hm
    have hcond : gcmTag key iv (flipBit n m) (aesGcmXcrypt key iv p) ≠
        gcmTag key iv n (aesGcmXcrypt key iv p) := by
      intro h
      have hinj := gcmTag_inj (lt257 hiv) (lt257 hiv)
        (lt257 (flipBit_bytes m hn)) (lt257 hn) (lt257 hct) (lt257 hct) h
      exact flipBit_ne hm hinj.2.1
    simp [tamperEnvelope, encryptFile, decryptFromIPFS, decryptFile, hcond]

/-- Concrete instance of `claim_C2`: one bit of the ciphertext flipped. -/
theorem claim_C2_witness :
    decryptFromIPFS [7]
        (tamperEnvelope TamperTarget.ciphertext
          (encryptFile [7] [1, 2] [5] [10] "aes-256-gcm" 0) 0) = none :=
  claim_C2 [7] [1, 2] [5] [10] "aes-256-gcm" 0 TamperTarget.ciphertext 0
    (by decide) (by decide) (by decide) (by decide)

end EncryptionService

namespace CertificateManager

theorem certWithInactive_eq {c : Certificate} (h : c.isActive = false) :
    { c with isActive := false } = c := by
  cases c
  simp_all

/-- An existing inactive record is left untouched by every external call
of the contract (issue on the same fid reverts as duplicate, update on it
reverts before mutating, a repeated delete rewrites the same value, and
calls on other fids do not touch it). -/
theorem inactive_step (s : ContractState) (f : String) (op : LedgerOp)
    (hex : (s.certificates f).fid ≠ "")
    (hinact : (s.certificates f).isActive = false) :
    (applyLedgerOp s op).certificates f = s.certificates f := by
  cases op with
  | issue fid cid email sender now =>
    simp only [applyLedgerOp, issueCertificate]
    split_ifs with h1 h2 h3 h4
    · rfl
    · rfl
    · rfl
    · simp only [resolve]
      rw [if_neg]
      intro hff
      exact hex (by rw [hff]; exact h4)
    · rfl
  | update fid newCid sender now =>
    simp only [applyLedgerOp, updateCertificate]
    split_ifs with h1 h2 h3 h4
    · rfl
    · rfl
    · simp only [resolve]
      rw [if_neg]
      intro hff
      rw [hff] at hinact
      rw [hinact] at h3
      exact Bool.false_ne_true h3
    · rfl
    · rfl
  | deactivate fid sender =>
    simp only [applyLedgerOp, deleteCertificate]
    split_ifs with h1 h2
    · rfl
    · simp only [resolve]
      by_cases hff : f = fid
      · rw [if_pos hff, ← hff]
        exact certWithInactive_eq hinact
      · rw [if_neg hff]
    · rfl
  | verify fid email => rfl

/-- `inactive_step` extended to arbitrary sequences of external calls. -/
theorem inactive_steps (f : String) :
    ∀ (ops : List LedgerOp) (s : ContractState),
      (s.certificates f).fid ≠ "" → (s.certificates f).isActive = false →
      (applyLedgerOps s ops).certificates f = s.certificates f := by
  intro ops
  induction ops with
  | nil => intro s _ _; rfl
  | cons op rest ih =>
    intro s hex hinact
    have hstep := inactive_step s f op hex hinact
    have hrest := ih (applyLedgerOp s op) (by rw [hstep]; exact hex)
      (by rw [hstep]; exact hinact)
    calc (applyLedgerOps (applyLedgerOp s op) rest).certificates f
        = (applyLedgerOp s op).certificates f := hrest
      _ = s.certificates f := hstep

end CertificateManager

namespace CertificateManager

/-- Claim C4, counterexample: on a state whose record for `f1` exists but
is inactive, the ledger's verify operation raises an error (the
`certificateActive` modifier reverts) instead of returning `false` as a
normal result — refuting the claim at this concrete input. -/
theorem claim_C4_counterexample :
    (Examples.sampleInactive.certificates "f1").fid = "f1" ∧
    (Examples.sampleInactive.certificates "f1").isActive = false ∧
    verifyCertificate Examples.sampleInactive "f1" "a@x.com" =
      .error .notActive :=
  ⟨rfl, rfl, rfl⟩

/-- Claim C4 (corrected): for an existing but inactive record, the
on-chain `verifyCertificate` reverts with the inactive error rather than
returning `false`; the controller's verify flow, which reads the record
first, answers the inactive case as a normal non-error negative result
(`isValid:false`, reason inactive) for any candidate email, without
calling the on-chain verify. -/
theorem claim_C4 (s : ContractState) (fid email : String)
    (hex : (s.certificates fid).fid ≠ "")
    (hinact : (s.certificates fid).isActive = false) :
    CertificateController.verifyCertificate s fid email =
      .inactiveResult ∧
    verifyCertificate s fid email = .error .notActive := by
  have hget : getCertificate s fid = .ok (s.certificates fid) := by
    simp [getCertificate, hex]
  constructor
  · simp [CertificateController.verifyCertificate, hget, hinact]
  · simp [verifyCertificate, hex, hinact]

/-- Concrete instance of `claim_C4`. -/
theorem claim_C4_witness :
    CertificateController.verifyCertificate Examples.sampleInactive "f1"
        "b@x.com" = .inactiveResult ∧
    verifyCertificate Examples.sampleInactive "f1" "b@x.com" =
      .error .notActive :=
  claim_C4 Examples.sampleInactive "f1" "b@x.com" (by decide) (by decide)

/-- Claim C5, counterexample: after the issuer (address 1) deactivated
`f1`, an `updateCertificate` submitted by address 2 fails with the
authorization error, not with the inactive error the claim promises for
every subsequent update call. -/
theorem claim_C5_counterexample :
    (Examples.sampleInactive.certificates "f1").isActive = false ∧
    updateCertificate Examples.sampleInactive "f1" "QmB" 2 5 =
      .error .onlyIssuer ∧
    LedgerError.onlyIssuer ≠ LedgerError.notActive :=
  ⟨rfl, rfl, by decide⟩

/-- Claim C5 (corrected): after deactivation every subsequent
`updateCertificate` on the fid fails — with the inactive error when made
by the stored issuer and with the authorization error when made by anyone
else — so no call can change the cid or reactivate the record (any
sequence of ledger calls leaves the record untouched), while
`getCertificate` still succeeds and returns the record with
`isActive = false` and the last-known cid. -/
theorem claim_C5 (s : ContractState) (f newCid : String) (a now : Nat)
    (op : LedgerOp) (ops : List LedgerOp)
    (hex : (s.certificates f).fid ≠ "")
    (hinact : (s.certificates f).isActive = false)
    (ha : a ≠ (s.certificates f).issuer) :
    updateCertificate s f newCid (s.certificates f).issuer now =
      .error .notActive ∧
    updateCertificate s f newCid a now = .error .onlyIssuer ∧
    getCertificate s f = .ok (s.certificates f) ∧
    (applyLedgerOp s op).certificates f = s.certificates f ∧
    (applyLedgerOps s ops).certificates f = s.certificates f := by
  refine ⟨?_, ?_, ?_, inactive_step s f op hex hinact,
    inactive_steps f ops s hex hinact⟩
  · simp [updateCertificate, hex, hinact]
  · have hiss : ¬((s.certificates f).issuer = a) := fun h => ha h.symm
    simp [updateCertificate, hex, hiss]
  · simp [getCertificate, hex]

/-- Concrete instance of `claim_C5`. -/
theorem claim_C5_witness :
    updateCertificate Examples.sampleInactive "f1" "QmB"
        (Examples.sampleInactive.certificates "f1").issuer 5 =
      .error .notActive ∧
    updateCertificate Examples.sampleInactive "f1" "QmB" 2 5 =
      .error .onlyIssuer ∧
    getCertificate Examples.sampleInactive "f1" =
      .ok (Examples.sampleInactive.certificates "f1") ∧
    (applyLedgerOp Examples.sampleInactive
        (.update "f1" "QmC" 1 9)).certificates "f1" =
      Examples.sampleInactive.certificates "f1" ∧
    (applyLedgerOps Examples.sampleInactive
        [.issue "f1" "QmC" "c@x.com" 3 9, .deactivate "f1" 1,
         .update "f1" "QmD" 1 11]).certificates "f1" =
      Examples.sampleInactive.certificates "f1" :=
  claim_C5 Examples.sampleInactive "f1" "QmB" 2 5 (.update "f1" "QmC" 1 9)
    [.issue "f1" "QmC" "c@x.com" 3 9, .deactivate "f1" 1,
     .update "f1" "QmD" 1 11] (by decide) (by decide) (by decide)

/-- Claim C6, counterexample: on a state whose record for `f1` exists, a
create call for `f1` carrying an empty cid fails with the empty-cid
argument error — the `require`s on the arguments run before the duplicate
check — not with the duplicate error the claim states. -/
theorem claim_C6_counterexample :
    (Examples.sampleIssued.certificates "f1").fid = "f1" ∧
    issueCertificate Examples.sampleIssued "f1" "" "b@y.com" 2 5 =
      .error .cidEmpty ∧
    LedgerError.cidEmpty ≠ LedgerError.duplicateFid :=
  ⟨rfl, rfl, by decide⟩

/-- Claim C6 (corrected): a create call for an existing fid (active or
inactive) with non-empty arguments fails with the duplicate error — with
an empty argument it fails earlier with the corresponding invalid-argument
error — and in every case the call fails and the existing record is left
unchanged. -/
theorem claim_C6 (s : ContractState) (f cid email c2 e2 : String)
    (a t a2 t2 : Nat)
    (hex : (s.certificates f).fid ≠ "") (hf : f ≠ "")
    (hc : cid ≠ "") (he : email ≠ "") :
    issueCertificate s f cid email a t = .error .duplicateFid ∧
    (resolve s (issueCertificate s f cid email a t)).certificates f =
      s.certificates f ∧
    (issueCertificate s f c2 e2 a2 t2).isOk = false ∧
    (resolve s (issueCertificate s f c2 e2 a2 t2)).certificates f =
      s.certificates f := by
  have hdup : issueCertificate s f cid email a t = .error .duplicateFid := by
    simp [issueCertificate, hf, hc, he, hex]
  have herr : ∃ err, issueCertificate s f c2 e2 a2 t2 = .error err := by
    rcases eq_or_ne c2 "" with hc2 | hc2
    · exact ⟨.cidEmpty, by simp [issueCertificate, hf, hc2]⟩
    · rcases eq_or_ne e2 "" with he2 | he2
      · exact ⟨.emailEmpty, by simp [issueCertificate, hf, hc2, he2]⟩
      · exact ⟨.duplicateFid, by simp [issueCertificate, hf, hc2, he2, hex]⟩
  rcases herr with ⟨err, herr⟩
  refine ⟨hdup, ?_, ?_, ?_⟩
  · rw [hdup]; rfl
  · rw [herr]; rfl
  · rw [herr]; rfl

/-- Concrete instance of `claim_C6` (duplicate create on an active record,
and a second call with an empty email, both failing without touching the
record). -/
theorem claim_C6_witness :
    issueCertificate Examples.sampleIssued "f1" "QmB" "b@y.com" 2 5 =
      .error .duplicateFid ∧
    (resolve Examples.sampleIssued
        (issueCertificate Examples.sampleIssued "f1" "QmB" "b@y.com" 2 5)).certificates
        "f1" =
      Examples.sampleIssued.certificates "f1" ∧
    (issueCertificate Examples.sampleIssued "f1" "QmB" "" 2 5).isOk = false ∧
    (resolve Examples.sampleIssued
        (issueCertificate Examples.sampleIssued "f1" "QmB" "" 2 5)).certificates
        "f1" =
      Examples.sampleIssued.certificates "f1" :=
  claim_C6 Examples.sampleIssued "f1" "QmB" "b@y.com" "QmB" "" 2 5 2 5
    (by decide) (by decide) (by decide) (by decide)

/-- Claim C7 (confirmed): for an existing record, `updateCertificate` and
`deleteCertificate` submitted by any identity other than the stored issuer
fail with the authorization error (`onlyIssuer` modifier) and, by revert
semantics, leave the record unchanged. -/
theorem claim_C7 (s : ContractState) (fid newCid : String) (a now : Nat)
    (hex : (s.certificates fid).fid ≠ "")
    (ha : a ≠ (s.certificates fid).issuer) :
    updateCertificate s fid newCid a now = .error .onlyIssuer ∧
    deleteCertificate s fid a = .error .onlyIssuer ∧
    (resolve s (updateCertificate s fid newCid a now)).certificates fid =
      s.certificates fid ∧
    (resolve s (deleteCertificate s fid a)).certificates fid =
      s.certificates fid := by
  have hiss : ¬((s.certificates fid).issuer = a) := fun h => ha h.symm
  have h1 : updateCertificate s fid newCid a now = .error .onlyIssuer := by
    simp [updateCertificate, hex, hiss]
  have h2 : deleteCertificate s fid a = .error .onlyIssuer := by
    simp [deleteCertificate, hex, hiss]
  exact ⟨h1, h2, by rw [h1]; rfl, by rw [h2]; rfl⟩

/-- Concrete instance of `claim_C7` (acting identity 2, stored issuer 1). -/
theorem claim_C7_witness :
    updateCertificate Examples.sampleIssued "f1" "QmB" 2 7 =
      .error .onlyIssuer ∧
    deleteCertificate Examples.sampleIssued "f1" 2 = .error .onlyIssuer ∧
    (resolve Examples.sampleIssued
        (updateCertificate Examples.sampleIssued "f1" "QmB" 2 7)).certificates
        "f1" =
      Examples.sampleIssued.certificates "f1" ∧
    (resolve Examples.sampleIssued
        (deleteCertificate Examples.sampleIssued "f1" 2)).certificates "f1" =
      Examples.sampleIssued.certificates "f1" :=
  claim_C7 Examples.sampleIssued "f1" "QmB" 2 7 (by decide) (by decide)

/-- Claim C9 (confirmed): a successful `updateCertificate` by the issuer on
an active record changes only the `cid` and the `lastModified` timestamp of
that record — `fid`, `email`, `issuer`, `issueDate` and `isActive` are
unchanged, records of other fids are untouched, and a subsequent read
returns the new cid together with the original email. -/
theorem claim_C9 (s : ContractState) (fid newCid g : String) (a now : Nat)
    (hex : (s.certificates fid).fid ≠ "")
    (hact : (s.certificates fid).isActive = true)
    (ha : (s.certificates fid).issuer = a)
    (hcid : newCid ≠ "") (hg : g ≠ fid) :
    ∃ s2, updateCertificate s fid newCid a now = .ok s2 ∧
      s2.certificates fid =
        { s.certificates fid with cid := newCid, lastModified := now } ∧
      (s2.certificates fid).cid = newCid ∧
      (s2.certificates fid).email = (s.certificates fid).email ∧
      (s2.certificates fid).issuer = (s.certificates fid).issuer ∧
      (s2.certificates fid).fid = (s.certificates fid).fid ∧
      (s2.certificates fid).issueDate = (s.certificates fid).issueDate ∧
      (s2.certificates fid).isActive = true ∧
      s2.certificates g = s.certificates g ∧
      getCertificate s2 fid = .ok (s2.certificates fid) := by
  refine ⟨{ s with certificates := fun g2 =>
      if g2 = fid then
        { s.certificates fid with cid := newCid, lastModified := now }
      else s.certificates g2 }, ?_, ?_, ?_, ?_, ?_, ?_, ?_, ?_, ?_, ?_⟩
  · simp [updateCertificate, hex, ha, hact, hcid]
  · simp
  · simp
  · simp
  · simp
  · simp
  · simp
  · simp [hact]
  · simp [hg]
  · simp [getCertificate, hex]

/-- Concrete instance of `claim_C9`. -/
theorem claim_C9_witness :
    ∃ s2, updateCertificate Examples.sampleIssued "f1" "QmB" 1 5 = .ok s2 ∧
      s2.certificates "f1" =
        { Examples.sampleIssued.certificates "f1" with
            cid := "QmB", lastModified := 5 } ∧
      (s2.certificates "f1").cid = "QmB" ∧
      (s2.certificates "f1").email =
        (Examples.sampleIssued.certificates "f1").email ∧
      (s2.certificates "f1").issuer =
        (Examples.sampleIssued.certificates "f1").issuer ∧
      (s2.certificates "f1").fid =
        (Examples.sampleIssued.certificates "f1").fid ∧
      (s2.certificates "f1").issueDate =
        (Examples.sampleIssued.certificates "f1").issueDate ∧
      (s2.certificates "f1").isActive = true ∧
      s2.certificates "g" = Examples.sampleIssued.certificates "g" ∧
      getCertificate s2 "f1" = .ok (s2.certificates "f1") :=
  claim_C9 Examples.sampleIssued "f1" "QmB" "g" 1 5 (by decide) (by decide)
    (by decide) (by decide) (by decide)

end CertificateManager

namespace CertificateController

open CertificateManager

/-- Claim C1, counterexample: on a ledger holding the active record `f1`
and with a store whose unpin always fails, the controller's delete flow
fails overall (`storeFailure`, the caught-and-rethrown 500 path) and
leaves the ledger record still active — so the record was not marked
inactive before the removal attempt, and the removal failure was
propagated as operation failure, refuting both halves of the claim. -/
theorem claim_C1_counterexample :
    (deleteCertificate Examples.sampleIssued (fun _ => false) "f1" 1).1 =
      .storeFailure ∧
    ((deleteCertificate Examples.sampleIssued (fun _ => false) "f1"
        1).2.certificates "f1").isActive = true :=
  ⟨rfl, rfl⟩

/-- Claim C1 (corrected): the controller's delete flow attempts the store
removal of the current content address first; when that removal fails, the
whole delete fails (`storeFailure`) and the ledger is left unchanged — the
record is not deactivated. -/
theorem claim_C1 (s : ContractState) (removeOk : String → Bool)
    (fid : String) (a : Nat)
    (hex : (s.certificates fid).fid ≠ "")
    (hfail : removeOk (s.certificates fid).cid = false) :
    deleteCertificate s removeOk fid a = (.storeFailure, s) := by
  have hget : CertificateManager.getCertificate s fid =
      .ok (s.certificates fid) := by
    simp [CertificateManager.getCertificate, hex]
  simp [deleteCertificate, hget, hfail]

/-- Concrete instance of `claim_C1`. -/
theorem claim_C1_witness :
    deleteCertificate Examples.sampleIssued (fun _ => false) "f1" 1 =
      (.storeFailure, Examples.sampleIssued) :=
  claim_C1 Examples.sampleIssued (fun _ => false) "f1" 1 (by decide) rfl

/-- Claim C8 (confirmed): for an active record whose ledger cid differs
from the caller-supplied expected address, the download flow fails with
the cid-mismatch error and performs no fetch from the content store (the
list of fetched addresses is empty). -/
theorem claim_C8 (s : ContractState)
    (store : String → Option EncryptionService.EncryptedData)
    (key : List Nat) (fid cid : String)
    (hfid : fid ≠ "") (hcid : cid ≠ "")
    (hex : (s.certificates fid).fid ≠ "")
    (hact : (s.certificates fid).isActive = true)
    (hne : (s.certificates fid).cid ≠ cid) :
    downloadCertificate s store key fid cid = (.cidMismatch, []) := by
  have hget : CertificateManager.getCertificate s fid =
      .ok (s.certificates fid) := by
    simp [CertificateManager.getCertificate, hex]
  have hpar : ¬(fid = "" ∨ cid = "") := by
    rintro (h | h)
    · exact hfid h
    · exact hcid h
  simp [downloadCertificate, hpar, hget, hact, hne]

/-- Concrete instance of `claim_C8`: the record's cid is QmA, the caller
asserts QmB. -/
theorem claim_C8_witness :
    downloadCertificate Examples.sampleIssued (fun _ => none) [] "f1" "QmB" =
      (.cidMismatch, []) :=
  claim_C8 Examples.sampleIssued (fun _ => none) [] "f1" "QmB" (by decide)
    (by decide) (by decide) (by decide) (by decide)

end CertificateController
